import Mathlib

/-!
Shallow embedding of the Location-and-Map mobile application
(App component and the useLocation hook), together with proofs about
its save / edit / delete / map-gesture state transitions.

The application state lives in React `useState` cells of the `App`
component; we collect those cells in one `AppState` structure and model
each event handler as a function on it.  Handlers that trigger external
side effects (alert dialogs, camera animations) also return a list of
`Effect`s.  The device clock value `Date.now()` read inside
`saveCurrentPlace` is passed in as an explicit `now : Nat` argument, and
the live position exposed by `useLocation` is passed as an
`Option Coordinate`.  Coordinates are modelled with rational components;
the app performs no arithmetic on them, it only stores and compares them.
-/

namespace LocationApp

/-- JavaScript `String.prototype.trim`: strip leading and trailing
whitespace.  (Lean's own `String.trim` is defined through substring
primitives that do not reduce in the kernel, so we spell the same
function out over the character list.) -/
def jsTrim (s : String) : String :=
  String.mk
    ((s.data.dropWhile Char.isWhitespace).reverse.dropWhile
      Char.isWhitespace).reverse

/-- `Coordinate` from types.ts: `{latitude, longitude}`. -/
structure Coordinate where
  latitude : Rat
  longitude : Rat
deriving DecidableEq

/-- `SavedPlace` from types.ts. -/
structure SavedPlace where
  id : String
  latitude : Rat
  longitude : Rat
  name : String
  description : String
deriving DecidableEq

/-- External side effects a handler can trigger: an `Alert.alert` dialog
and a `mapRef.current.animateToRegion` camera animation (we record the
target centre and the duration; the fixed 0.01 deltas are dropped). -/
inductive Effect where
  | alert (title message : String)
  | animateTo (latitude longitude : Rat) (duration : Nat)
deriving DecidableEq

/-- The `useState` cells of the `App` component. -/
structure AppState where
  savedPlaces : List SavedPlace
  addModalVisible : Bool
  listModalVisible : Bool
  newPlaceName : String
  newPlaceDesc : String
  selectedLocation : Option Coordinate
  isTracking : Bool
deriving DecidableEq

/-- The initial values of the `useState` cells. -/
def initialAppState : AppState :=
  { savedPlaces := []
    addModalVisible := false
    listModalVisible := false
    newPlaceName := ""
    newPlaceDesc := ""
    selectedLocation := none
    isTracking := true }

/-- `handleMapPress`: store the tapped coordinate as selected, open the
add modal, turn tracking off. -/
def handleMapPress (s : AppState) (coord : Coordinate) : AppState :=
  { s with
    selectedLocation := some coord
    addModalVisible := true
    isTracking := false }

/-- `recenterMap`.  The guard `mapRef.current && location` in the source
tests the map ref as well; the ref is attached for the whole rendered
lifetime of the component, so only the live position can be absent. -/
def recenterMap (s : AppState) (location : Option Coordinate) :
    AppState × List Effect :=
  match location with
  | some c =>
      ({ s with isTracking := true },
       [Effect.animateTo c.latitude c.longitude 1000])
  | none => (s, [])

/-- `closeAddModal`: hide the add modal and clear the transient fields. -/
def closeAddModal (s : AppState) : AppState :=
  { s with
    addModalVisible := false
    selectedLocation := none
    newPlaceName := ""
    newPlaceDesc := "" }

/-- `saveCurrentPlace`.  Mirrors the source exactly: the missing-target
guard `!selectedLocation && !location` runs before the empty-name
check; `Date.now().toString()` becomes `Nat.repr now`.  The default
coordinate in `getD` is never used: that branch is reached only when at
least one of the two options is `some` (the source uses the non-null
assertion `location!` there). -/
def saveCurrentPlace (s : AppState) (location : Option Coordinate)
    (now : Nat) : AppState × List Effect :=
  if s.selectedLocation.isNone && location.isNone then (s, [])
  else if jsTrim s.newPlaceName = "" then
    (s, [Effect.alert "Missing Name" "Please enter a name."])
  else
    let target := s.selectedLocation.getD (location.getD ⟨0, 0⟩)
    let newPlace : SavedPlace :=
      { id := Nat.repr now
        latitude := target.latitude
        longitude := target.longitude
        name := s.newPlaceName
        description := s.newPlaceDesc }
    (closeAddModal { s with savedPlaces := s.savedPlaces ++ [newPlace] }, [])

/-- `goToPlace`: close the list modal, animate to the place, stop
tracking (the map ref is attached, see `recenterMap`). -/
def goToPlace (s : AppState) (place : SavedPlace) : AppState × List Effect :=
  ({ s with listModalVisible := false, isTracking := false },
   [Effect.animateTo place.latitude place.longitude 1000])

/-- The two choices offered by the delete confirmation dialog. -/
inductive DeleteChoice where
  | cancel
  | confirm
deriving DecidableEq

/-- `deletePlace` resolved with the user's dialog choice: the Cancel
button has no handler, the Delete button filters the id out. -/
def deletePlace (s : AppState) (id : String) (choice : DeleteChoice) :
    AppState :=
  match choice with
  | .cancel => s
  | .confirm =>
      { s with savedPlaces := s.savedPlaces.filter (fun p => p.id != id) }

/-- `editPlace`: look the id up; if absent return unchanged, otherwise
pre-fill the form, select the place's coordinate, open the add modal,
filter the id out of the store and stop tracking.  The source's
`place.description || ""` is the identity on strings, the empty string
being mapped to itself. -/
def editPlace (s : AppState) (id : String) : AppState :=
  match s.savedPlaces.find? (fun p => p.id == id) with
  | none => s
  | some place =>
      { s with
        newPlaceName := place.name
        newPlaceDesc := place.description
        selectedLocation := some ⟨place.latitude, place.longitude⟩
        addModalVisible := true
        savedPlaces := s.savedPlaces.filter (fun p => p.id != id)
        isTracking := false }

/-- The add floating button's inline `onPress`: clear the selection and
open the add modal. -/
def pressAddButton (s : AppState) : AppState :=
  { s with selectedLocation := none, addModalVisible := true }

/-- The name input's `onChangeText`. -/
def setNewPlaceName (s : AppState) (v : String) : AppState :=
  { s with newPlaceName := v }

/-- The description input's `onChangeText`. -/
def setNewPlaceDesc (s : AppState) (v : String) : AppState :=
  { s with newPlaceDesc := v }

/-! ### User events and reachable states

Each event carries the data the corresponding handler reads from
outside the component state: the tapped coordinate, the live position
exposed by `useLocation` at that moment, the clock value at a save, a
dialog choice.  A React Native `Modal` swallows every touch on the
content behind it, and the add modal is rendered on top of the list
modal, so: the map surface and the three floating buttons only receive
events while no modal is shown; the list rows only while the list modal
is shown and the add modal is not; the add-modal controls only while
the add modal is shown.  `step` ignores an event whose source is not
reachable in the current state. -/

inductive Event where
  | mapPress (c : Coordinate)
  | recenter (loc : Option Coordinate)
  | pressAdd
  | pressList
  | closeList
  | typeName (v : String)
  | typeDesc (v : String)
  | save (loc : Option Coordinate) (now : Nat)
  | cancelAdd
  | listGoTo (p : SavedPlace)
  | listEdit (id : String)
  | listDelete (id : String) (choice : DeleteChoice)

/-- One UI event processed against the current state. -/
def step (s : AppState) : Event → AppState
  | .mapPress c =>
      if s.addModalVisible || s.listModalVisible then s
      else handleMapPress s c
  | .recenter loc =>
      if s.addModalVisible || s.listModalVisible then s
      else (recenterMap s loc).1
  | .pressAdd =>
      if s.addModalVisible || s.listModalVisible then s
      else pressAddButton s
  | .pressList =>
      if s.addModalVisible || s.listModalVisible then s
      else { s with listModalVisible := true }
  | .closeList =>
      if s.listModalVisible && !s.addModalVisible then
        { s with listModalVisible := false }
      else s
  | .typeName v => if s.addModalVisible then setNewPlaceName s v else s
  | .typeDesc v => if s.addModalVisible then setNewPlaceDesc s v else s
  | .save loc now =>
      if s.addModalVisible then (saveCurrentPlace s loc now).1 else s
  | .cancelAdd => if s.addModalVisible then closeAddModal s else s
  | .listGoTo p =>
      if s.listModalVisible && !s.addModalVisible then (goToPlace s p).1
      else s
  | .listEdit id =>
      if s.listModalVisible && !s.addModalVisible then editPlace s id else s
  | .listDelete id choice =>
      if s.listModalVisible && !s.addModalVisible then
        deletePlace s id choice
      else s

/-- Run a sequence of events from a state. -/
def run (s : AppState) (events : List Event) : AppState :=
  events.foldl step s

/-- A state is reachable when some event sequence produces it from the
initial state. -/
def Reachable (s : AppState) : Prop :=
  ∃ events, run initialAppState events = s

/-- The ids currently stored, in store order. -/
def storeIds (s : AppState) : List String :=
  s.savedPlaces.map (fun p => p.id)

/-- The clock values consumed by the save events of a trace, in order. -/
def saveTimes : List Event → List Nat
  | [] => []
  | .save _ now :: es => now :: saveTimes es
  | _ :: es => saveTimes es

/-! ### The location provider (useLocation hook)

State of the hook's two `useState` cells plus whether
`watchPositionAsync` has been started.  The permission result drives
`onPermissionResult`; afterwards position samples arrive only through
the subscription callback, so a sample received without a subscription
leaves the state unchanged. -/

structure LocationState where
  location : Option Coordinate
  errorMsg : Option String
  subscribed : Bool
deriving DecidableEq

/-- Hook state right after mount. -/
def initialLocationState : LocationState :=
  { location := none, errorMsg := none, subscribed := false }

/-- The permission continuation in the hook's effect: on denial set the
error message and alert, never subscribing; on grant start the watch
subscription (accuracy high, 3000 ms, 5 m — the configuration does not
affect the state). -/
def onPermissionResult (s : LocationState) (granted : Bool) :
    LocationState × List Effect :=
  if granted then ({ s with subscribed := true }, [])
  else
    ({ s with errorMsg := some "Permission to access location was denied" },
     [Effect.alert "Permission Denied" "Cannot access location."])

/-- The watch callback `(loc) => setLocation(loc)`: each sample
overwrites the exposed position; without a subscription no sample is
delivered. -/
def onPositionSample (s : LocationState) (c : Coordinate) : LocationState :=
  if s.subscribed then { s with location := some c } else s

/-! ### Concrete fixtures used by witnesses and counterexamples -/

/-- A concrete saved place. -/
def placeA : SavedPlace :=
  { id := "1", latitude := 1, longitude := 2, name := "A", description := "" }

/-- A state holding `placeA` with the list modal open. -/
def listState : AppState :=
  { savedPlaces := [placeA]
    addModalVisible := false
    listModalVisible := true
    newPlaceName := ""
    newPlaceDesc := ""
    selectedLocation := none
    isTracking := true }

/-- A state with the add modal open, a typed name and a selected
coordinate. -/
def cafeState : AppState :=
  { savedPlaces := []
    addModalVisible := true
    listModalVisible := false
    newPlaceName := "Cafe"
    newPlaceDesc := "nice"
    selectedLocation := some ⟨17, 102⟩
    isTracking := false }

/-- A state with the add modal open, a whitespace-only name, no selected
coordinate. -/
def blankNameState : AppState :=
  { savedPlaces := []
    addModalVisible := true
    listModalVisible := false
    newPlaceName := "   "
    newPlaceDesc := ""
    selectedLocation := none
    isTracking := false }

/-- A fresh state with empty fields, used as the base of witnesses. -/
def freshState : AppState :=
  { savedPlaces := []
    addModalVisible := false
    listModalVisible := false
    newPlaceName := "Cafe"
    newPlaceDesc := ""
    selectedLocation := none
    isTracking := true }

/-- Two saves in the same millisecond (`Date.now()` returns 7 twice):
both generated ids are the string "7". -/
def sameMillisTrace : List Event :=
  [.mapPress ⟨1, 2⟩, .typeName "A", .save none 7,
   .mapPress ⟨1, 2⟩, .typeName "B", .save none 7]

/-- The same-millisecond trace followed by opening the list modal. -/
def sameMillisListTrace : List Event :=
  sameMillisTrace ++ [.pressList]

/-- Save at millisecond 5, then edit-open that entry and re-save, the
clock still reading 5. -/
def editReuseTrace : List Event :=
  [.mapPress ⟨1, 2⟩, .typeName "A", .save none 5,
   .pressList, .listEdit "5", .typeName "B", .save none 5]

/-- Save, edit-open (pre-filling the form), cancel, close the list:
ends with both modals closed after a pre-fill-then-cancel. -/
def editCancelTrace : List Event :=
  [.mapPress ⟨1, 2⟩, .typeName "Cafe", .save none 3,
   .pressList, .listEdit "3", .cancelAdd, .closeList]

/-- Two saves at distinct clock values 5 and 6. -/
def distinctTimesTrace : List Event :=
  [.mapPress ⟨1, 2⟩, .typeName "A", .save none 5,
   .mapPress ⟨3, 4⟩, .typeName "B", .save none 6]

/-! ### Injectivity of the generated ids

`Date.now().toString()` is modelled by `Nat.repr`.  Distinct clock
values give distinct id strings; we prove this by relating the core
`Nat.toDigitsCore` to Mathlib's `Nat.digits`. -/

lemma toDigitsCore_eq_digits (b : Nat) (hb : 1 < b) :
    ∀ (fuel n : Nat) (acc : List Char), 0 < n → n < fuel →
      Nat.toDigitsCore b fuel n acc =
        ((Nat.digits b n).map Nat.digitChar).reverse ++ acc := by
  intro fuel
  induction fuel with
  | zero => intro n acc h0 hf; omega
  | succ f ih =>
    intro n acc h0 hf
    rw [Nat.toDigitsCore]
    by_cases hq : n / b = 0
    · rw [if_pos hq, Nat.digits_def' hb h0, hq]
      simp
    · rw [if_neg hq]
      have h0' : 0 < n / b := Nat.pos_of_ne_zero hq
      have hf' : n / b < f := by
        have : n / b < n := Nat.div_lt_self h0 hb
        omega
      rw [ih (n / b) (Nat.digitChar (n % b) :: acc) h0' hf',
        Nat.digits_def' hb h0]
      simp

lemma toDigits_eq_digits (n : Nat) (h : 0 < n) :
    Nat.toDigits 10 n = ((Nat.digits 10 n).map Nat.digitChar).reverse := by
  rw [Nat.toDigits,
    toDigitsCore_eq_digits 10 (by norm_num) (n + 1) n [] h (Nat.lt_succ_self n),
    List.append_nil]

lemma digitChar_injOn :
    ∀ a < 10, ∀ b < 10, Nat.digitChar a = Nat.digitChar b → a = b := by decide

lemma map_digitChar_inj {l1 l2 : List Nat} (h1 : ∀ d ∈ l1, d < 10)
    (h2 : ∀ d ∈ l2, d < 10)
    (h : l1.map Nat.digitChar = l2.map Nat.digitChar) : l1 = l2 := by
  induction l1 generalizing l2 with
  | nil => cases l2 <;> simp_all
  | cons a t ih =>
    cases l2 with
    | nil => simp_all
    | cons b t2 =>
      simp only [List.map_cons, List.cons.injEq] at h
      have hab := digitChar_injOn a (h1 a (List.mem_cons_self a t)) b
        (h2 b (List.mem_cons_self b t2)) h.1
      subst hab
      have := ih (fun d hd => h1 d (List.mem_cons_of_mem _ hd))
        (fun d hd => h2 d (List.mem_cons_of_mem _ hd)) h.2
      rw [this]

lemma eq_of_toDigits_eq {m n : Nat} (hm : 0 < m) (hn : 0 < n)
    (h : Nat.toDigits 10 m = Nat.toDigits 10 n) : m = n := by
  rw [toDigits_eq_digits m hm, toDigits_eq_digits n hn] at h
  have h2 := List.reverse_injective h
  have h3 := map_digitChar_inj
    (fun d hd => Nat.digits_lt_base (by norm_num) hd)
    (fun d hd => Nat.digits_lt_base (by norm_num) hd) h2
  have h4 := Nat.ofDigits_digits 10 m
  rw [h3, Nat.ofDigits_digits] at h4
  omega

lemma toDigits_ne_zero_digits {n : Nat} (hn : 0 < n) :
    Nat.toDigits 10 n ≠ ['0'] := by
  intro h
  rw [toDigits_eq_digits n hn] at h
  have h2 : (Nat.digits 10 n).map Nat.digitChar = ['0'] := by
    have := congrArg List.reverse h
    simpa using this
  have h3 : Nat.digits 10 n = [0] := by
    refine map_digitChar_inj
      (fun d hd => Nat.digits_lt_base (by norm_num) hd)
      (fun d hd => by simp_all) ?_
    simpa using h2
  have h4 := Nat.ofDigits_digits 10 n
  rw [h3] at h4
  simp [Nat.ofDigits] at h4
  omega

theorem nat_repr_injective : Function.Injective Nat.repr := by
  intro m n h
  have h' : Nat.toDigits 10 m = Nat.toDigits 10 n := by
    have hd := congrArg String.data h
    simpa [Nat.repr, List.asString] using hd
  rcases Nat.eq_zero_or_pos m with hm | hm
  · rcases Nat.eq_zero_or_pos n with hn | hn
    · omega
    · exfalso
      rw [hm] at h'
      exact toDigits_ne_zero_digits hn (h'.symm.trans (by decide))
  · rcases Nat.eq_zero_or_pos n with hn | hn
    · exfalso
      rw [hn] at h'
      exact toDigits_ne_zero_digits hm (h'.trans (by decide))
    · exact eq_of_toDigits_eq hm hn h'

/-- In a store whose ids are pairwise distinct, looking up the id of a
member finds exactly that member, and filtering the id out is the
order-preserving removal of that one entry. -/
lemma find_filter_of_nodup {l : List SavedPlace} {p : SavedPlace}
    (hmem : p ∈ l) (hnodup : (l.map (fun q => q.id)).Nodup) :
    l.find? (fun q => q.id == p.id) = some p ∧
    l.filter (fun q => q.id != p.id) = l.erase p := by
  induction l with
  | nil => cases hmem
  | cons a t ih =>
    rw [List.map_cons, List.nodup_cons] at hnodup
    by_cases hap : a = p
    · subst hap
      have hfilter : t.filter (fun q => q.id != a.id) = t := by
        rw [List.filter_eq_self]
        intro q hq
        have hne : q.id ≠ a.id := by
          intro he
          exact hnodup.1 (he ▸ List.mem_map_of_mem _ hq)
        simpa using hne
      constructor
      · simp [List.find?]
      · simp [List.filter, hfilter, List.erase_cons_head]
    · have hpt : p ∈ t := by
        rcases List.mem_cons.mp hmem with h | h
        · exact absurd h.symm hap
        · exact h
      have haid : a.id ≠ p.id := by
        intro he
        exact hnodup.1 (he ▸ List.mem_map_of_mem _ hpt)
      obtain ⟨ihf, ihfil⟩ := ih hpt hnodup.2
      constructor
      · rw [List.find?_cons_of_neg _ (by simpa using haid), ihf]
      · rw [List.filter_cons_of_pos (by simpa using haid), ihfil,
          List.erase_cons_tail (by simpa using hap)]

/-! ### Claim theorems -/

/-- C7: tapping the map at any coordinate, in any state, turns tracking
off, records the tapped coordinate as the selected location, opens the
add/edit modal, leaves the store untouched, and makes the tapped
coordinate the target of the next save: saving afterwards with a
non-empty trimmed name appends a place carrying exactly that
coordinate, whatever the live position is. -/
theorem mapPress_spec (s : AppState) (c : Coordinate) :
    (handleMapPress s c).isTracking = false ∧
    (handleMapPress s c).selectedLocation = some c ∧
    (handleMapPress s c).addModalVisible = true ∧
    (handleMapPress s c).savedPlaces = s.savedPlaces ∧
    (∀ (loc : Option Coordinate) (now : Nat), jsTrim s.newPlaceName ≠ "" →
      (saveCurrentPlace (handleMapPress s c) loc now).1.savedPlaces =
        s.savedPlaces ++
          [{ id := Nat.repr now, latitude := c.latitude,
             longitude := c.longitude, name := s.newPlaceName,
             description := s.newPlaceDesc }]) := by
  refine ⟨rfl, rfl, rfl, rfl, ?_⟩
  intro loc now hname
  simp [handleMapPress, saveCurrentPlace, hname, closeAddModal]

/-- Witness for C7: a concrete tap at (17, 102) followed by a save. -/
theorem mapPress_witness :
    jsTrim freshState.newPlaceName ≠ "" ∧
    (saveCurrentPlace (handleMapPress freshState ⟨17, 102⟩)
        none 3).1.savedPlaces =
      [{ id := "3", latitude := 17, longitude := 102, name := "Cafe",
         description := "" }] := by
  refine ⟨by decide, ?_⟩
  have h := (mapPress_spec freshState ⟨17, 102⟩).2.2.2.2 none 3 (by decide)
  simpa [freshState] using h

/-- C8: pressing the recenter control with a known live position turns
tracking on, changes no other state field, and emits exactly one
camera animation to that position; with no known live position it
returns the state unchanged and emits nothing. -/
theorem recenter_spec (s : AppState) (c : Coordinate) :
    ((recenterMap s (some c)).1.isTracking = true ∧
     (recenterMap s (some c)).1.savedPlaces = s.savedPlaces ∧
     (recenterMap s (some c)).1.selectedLocation = s.selectedLocation ∧
     (recenterMap s (some c)).1.addModalVisible = s.addModalVisible ∧
     (recenterMap s (some c)).1.listModalVisible = s.listModalVisible ∧
     (recenterMap s (some c)).1.newPlaceName = s.newPlaceName ∧
     (recenterMap s (some c)).1.newPlaceDesc = s.newPlaceDesc ∧
     (recenterMap s (some c)).2 =
       [Effect.animateTo c.latitude c.longitude 1000]) ∧
    recenterMap s none = (s, []) :=
  ⟨⟨rfl, rfl, rfl, rfl, rfl, rfl, rfl, rfl⟩, rfl⟩

lemma foldl_onPositionSample_of_unsubscribed (samples : List Coordinate) :
    ∀ s : LocationState, s.subscribed = false →
      samples.foldl onPositionSample s = s := by
  induction samples with
  | nil => intro s _; rfl
  | cons c cs ih =>
    intro s h
    have hstep : onPositionSample s c = s := by
      simp [onPositionSample, h]
    rw [List.foldl_cons, hstep]
    exact ih s h

/-- C9: a denied foreground-permission result sets the error message to
the permission-denied text, surfaces exactly one alert, never starts
the position subscription, and however many position samples the
platform would deliver afterwards, the exposed position stays null. -/
theorem useLocation_denied_spec :
    (onPermissionResult initialLocationState false).1.errorMsg =
        some "Permission to access location was denied" ∧
    (onPermissionResult initialLocationState false).2 =
        [Effect.alert "Permission Denied" "Cannot access location."] ∧
    (onPermissionResult initialLocationState false).1.subscribed = false ∧
    ∀ samples : List Coordinate,
      (samples.foldl onPositionSample
          (onPermissionResult initialLocationState false).1).location =
        none := by
  refine ⟨rfl, rfl, rfl, ?_⟩
  intro samples
  rw [foldl_onPositionSample_of_unsubscribed samples _ rfl]
  rfl

/-- C10: invoking the edit action with an id that matches no stored
place returns the state completely unchanged: store, form fields,
selection, modal visibility and tracking flag all keep their values. -/
theorem editPlace_absent_id (s : AppState) (id : String)
    (h : ∀ p ∈ s.savedPlaces, p.id ≠ id) :
    editPlace s id = s := by
  have hf : s.savedPlaces.find? (fun p => p.id == id) = none := by
    rw [List.find?_eq_none]
    intro p hp
    simpa using h p hp
  simp [editPlace, hf]

/-- Witness for C10: editing an absent id on a one-place store. -/
theorem editPlace_absent_id_witness :
    (∀ p ∈ listState.savedPlaces, p.id ≠ "zz") ∧
    editPlace listState "zz" = listState :=
  ⟨by decide, editPlace_absent_id listState "zz" (by decide)⟩

/-- C1 counterexample: a save with a whitespace-only name while neither
a selected coordinate nor a live position is available shows no alert
at all — the missing-target guard returns first — so the validation
alert is not shown "regardless of availability" as the claim states.
(The store is indeed unchanged and the modal stays open.) -/
theorem save_blank_name_no_alert_cex :
    jsTrim blankNameState.newPlaceName = "" ∧
    blankNameState.addModalVisible = true ∧
    saveCurrentPlace blankNameState none 0 = (blankNameState, []) := by
  refine ⟨by decide, rfl, by decide⟩

/-- C1 (amended): when the trimmed pending name is empty AND a selected
coordinate or live position is available, the save shows the validation
alert and returns the state unchanged — store untouched, modal still
open.  (Without any available coordinate the save is a silent no-op,
see the counterexample.) -/
theorem save_blank_name_alert (s : AppState) (loc : Option Coordinate)
    (now : Nat) (hname : jsTrim s.newPlaceName = "")
    (havail : s.selectedLocation.isSome ∨ loc.isSome) :
    saveCurrentPlace s loc now =
      (s, [Effect.alert "Missing Name" "Please enter a name."]) := by
  have hguard : (s.selectedLocation.isNone && loc.isNone) = false := by
    rcases havail with h | h <;> cases hs : s.selectedLocation <;>
      cases hl : loc <;> simp_all
  simp [saveCurrentPlace, hguard, hname]

/-- Witness for C1: a whitespace-only name with a live position known
produces exactly the validation alert and no state change. -/
theorem save_blank_name_alert_witness :
    jsTrim blankNameState.newPlaceName = "" ∧
    ((blankNameState.selectedLocation.isSome ∨
        (some (⟨17, 102⟩ : Coordinate)).isSome) ∧
      saveCurrentPlace blankNameState (some ⟨17, 102⟩) 0 =
        (blankNameState,
         [Effect.alert "Missing Name" "Please enter a name."])) :=
  ⟨by decide, by decide,
   save_blank_name_alert blankNameState (some ⟨17, 102⟩) 0 (by decide)
     (Or.inr (by decide))⟩

/-- C6: confirming the delete prompt keeps exactly the entries whose id
differs, in their original order, and touches no other state field;
when the id matches a member of a duplicate-free store the result is
precisely the order-preserving removal of that one entry; an absent id
is a no-op; choosing Cancel changes nothing at all. -/
theorem deletePlace_spec (s : AppState) (id : String) :
    ((deletePlace s id .confirm).savedPlaces.Sublist s.savedPlaces) ∧
    (∀ p, p ∈ (deletePlace s id .confirm).savedPlaces ↔
      p ∈ s.savedPlaces ∧ p.id ≠ id) ∧
    ((deletePlace s id .confirm).addModalVisible = s.addModalVisible ∧
     (deletePlace s id .confirm).listModalVisible = s.listModalVisible ∧
     (deletePlace s id .confirm).newPlaceName = s.newPlaceName ∧
     (deletePlace s id .confirm).newPlaceDesc = s.newPlaceDesc ∧
     (deletePlace s id .confirm).selectedLocation = s.selectedLocation ∧
     (deletePlace s id .confirm).isTracking = s.isTracking) ∧
    ((∀ p ∈ s.savedPlaces, p.id ≠ id) → deletePlace s id .confirm = s) ∧
    (∀ p, p ∈ s.savedPlaces → p.id = id → (storeIds s).Nodup →
      (deletePlace s id .confirm).savedPlaces = s.savedPlaces.erase p) ∧
    (deletePlace s id .cancel = s) := by
  refine ⟨?_, ?_, ⟨rfl, rfl, rfl, rfl, rfl, rfl⟩, ?_, ?_, rfl⟩
  · exact List.filter_sublist _
  · intro p
    simp [deletePlace, List.mem_filter]
  · intro h
    have hself : s.savedPlaces.filter (fun p => p.id != id) = s.savedPlaces := by
      rw [List.filter_eq_self]
      intro p hp
      simpa using h p hp
    simp [deletePlace, hself]
  · intro p hp hid hnd
    subst hid
    simpa [deletePlace] using (find_filter_of_nodup hp hnd).2

/-- Witness for C6: deleting an absent id leaves the one-place store
unchanged; deleting the present id "1" empties it. -/
theorem deletePlace_witness :
    ((∀ p ∈ listState.savedPlaces, p.id ≠ "zz") ∧
      deletePlace listState "zz" .confirm = listState) ∧
    (placeA ∈ listState.savedPlaces ∧ placeA.id = "1" ∧
      (storeIds listState).Nodup ∧
      (deletePlace listState "1" .confirm).savedPlaces = []) :=
  ⟨⟨by decide, (deletePlace_spec listState "zz").2.2.2.1 (by decide)⟩,
   ⟨by decide, by decide, by decide, by
      have h := (deletePlace_spec listState "1").2.2.2.2.1 placeA (by decide)
        (by decide) (by decide)
      simpa [listState, placeA] using h⟩⟩

/-- C3 counterexample: the claim's "store size decreases by exactly one
at edit-open time" fails in a reachable state.  Two saves in the same
millisecond produce two entries both carrying id "7"; edit-opening id
"7" — a place present in the store — removes both entries, dropping the
size from 2 to 0. -/
theorem editPlace_removes_two_cex :
    storeIds (run initialAppState sameMillisListTrace) = ["7", "7"] ∧
    (run initialAppState sameMillisListTrace).savedPlaces.length = 2 ∧
    (run initialAppState
        (sameMillisListTrace ++ [.listEdit "7"])).savedPlaces.length = 0 := by
  refine ⟨by decide, by decide, by decide⟩

/-- C3 (amended): provided the store's ids are pairwise distinct (which
holds whenever no two saves shared a clock value), edit-opening a
stored place removes exactly that place — the store shrinks by one,
order preserved — pre-fills the form name/description from it, selects
its coordinate and opens the modal; cancelling afterwards keeps the
store as the edit left it, so the place is permanently gone. -/
theorem editPlace_found_spec (s : AppState) (p : SavedPlace)
    (hmem : p ∈ s.savedPlaces) (hnodup : (storeIds s).Nodup) :
    (editPlace s p.id).savedPlaces = s.savedPlaces.erase p ∧
    (editPlace s p.id).savedPlaces.length + 1 = s.savedPlaces.length ∧
    (editPlace s p.id).savedPlaces.Sublist s.savedPlaces ∧
    p ∉ (editPlace s p.id).savedPlaces ∧
    (editPlace s p.id).newPlaceName = p.name ∧
    (editPlace s p.id).newPlaceDesc = p.description ∧
    (editPlace s p.id).selectedLocation = some ⟨p.latitude, p.longitude⟩ ∧
    (editPlace s p.id).addModalVisible = true ∧
    (closeAddModal (editPlace s p.id)).savedPlaces = s.savedPlaces.erase p ∧
    p ∉ (closeAddModal (editPlace s p.id)).savedPlaces := by
  obtain ⟨hfind, hfil⟩ := find_filter_of_nodup hmem hnodup
  have hplaces : (editPlace s p.id).savedPlaces = s.savedPlaces.erase p := by
    simp [editPlace, hfind, hfil]
  have hlen : (s.savedPlaces.erase p).length + 1 = s.savedPlaces.length := by
    rw [List.length_erase_of_mem hmem]
    have := List.length_pos.mpr (List.ne_nil_of_mem hmem)
    omega
  have hnd : s.savedPlaces.Nodup := List.Nodup.of_map _ hnodup
  have hnotmem : p ∉ s.savedPlaces.erase p := by
    intro hc
    exact ((List.Nodup.mem_erase_iff hnd).mp hc).1 rfl
  refine ⟨hplaces, hplaces ▸ hlen, hplaces ▸ List.erase_sublist p s.savedPlaces,
    hplaces ▸ hnotmem, ?_, ?_, ?_, ?_, ?_, ?_⟩
  · simp [editPlace, hfind]
  · simp [editPlace, hfind]
  · simp [editPlace, hfind]
  · simp [editPlace, hfind]
  · simpa [closeAddModal] using hplaces
  · simpa [closeAddModal] using hplaces ▸ hnotmem

/-- Witness for C3: edit-opening the one place of a concrete store
empties the store and pre-fills the form with its name. -/
theorem editPlace_found_witness :
    placeA ∈ listState.savedPlaces ∧ (storeIds listState).Nodup ∧
    (editPlace listState placeA.id).savedPlaces = [] ∧
    (editPlace listState placeA.id).newPlaceName = "A" := by
  refine ⟨by decide, by decide, ?_, ?_⟩
  · have h := (editPlace_found_spec listState placeA (by decide)
      (by decide)).1
    simpa [listState, placeA] using h
  · exact (editPlace_found_spec listState placeA (by decide)
      (by decide)).2.2.2.2.1

/-- C4: a save with a non-empty trimmed name appends one new place at
the end of the store — built from the selected coordinate when present,
else from the live position — carrying the current name and
description, closes the modal and clears the selection and both form
fields, with no alert; when neither coordinate source is available the
save returns everything unchanged and emits nothing. -/
theorem saveCurrentPlace_spec (s : AppState) (loc : Option Coordinate)
    (now : Nat) (hname : jsTrim s.newPlaceName ≠ "") :
    (∀ c, s.selectedLocation = some c →
      saveCurrentPlace s loc now =
        ({ s with
            savedPlaces := s.savedPlaces ++
              [{ id := Nat.repr now, latitude := c.latitude,
                 longitude := c.longitude, name := s.newPlaceName,
                 description := s.newPlaceDesc }]
            addModalVisible := false
            selectedLocation := none
            newPlaceName := ""
            newPlaceDesc := "" }, [])) ∧
    (∀ c, s.selectedLocation = none → loc = some c →
      saveCurrentPlace s loc now =
        ({ s with
            savedPlaces := s.savedPlaces ++
              [{ id := Nat.repr now, latitude := c.latitude,
                 longitude := c.longitude, name := s.newPlaceName,
                 description := s.newPlaceDesc }]
            addModalVisible := false
            selectedLocation := none
            newPlaceName := ""
            newPlaceDesc := "" }, [])) ∧
    (s.selectedLocation = none → loc = none →
      saveCurrentPlace s loc now = (s, [])) := by
  refine ⟨?_, ?_, ?_⟩
  · intro c hc
    simp [saveCurrentPlace, hc, hname, closeAddModal]
  · intro c hc hl
    simp [saveCurrentPlace, hc, hl, hname, closeAddModal]
  · intro hc hl
    simp [saveCurrentPlace, hc, hl]

/-- Witness for C4: a concrete save with name "Cafe" and a selected
coordinate appends the place and clears the transient fields. -/
theorem saveCurrentPlace_witness :
    jsTrim cafeState.newPlaceName ≠ "" ∧
    cafeState.selectedLocation = some ⟨17, 102⟩ ∧
    saveCurrentPlace cafeState none 9 =
      ({ cafeState with
          savedPlaces :=
            [{ id := "9", latitude := 17, longitude := 102,
               name := "Cafe", description := "nice" }]
          addModalVisible := false
          selectedLocation := none
          newPlaceName := ""
          newPlaceDesc := "" }, []) := by
  refine ⟨by decide, by decide, ?_⟩
  have h := (saveCurrentPlace_spec cafeState none 9 (by decide)).1
    ⟨17, 102⟩ (by decide)
  simpa [cafeState] using h

/-! ### Invariant machinery for C5: when the add modal is closed the
form fields are empty, in every reachable state. -/

lemma step_preserves_clean (s : AppState) (e : Event)
    (h : s.addModalVisible = false →
      s.newPlaceName = "" ∧ s.newPlaceDesc = "") :
    (step s e).addModalVisible = false →
      (step s e).newPlaceName = "" ∧ (step s e).newPlaceDesc = "" := by
  cases e with
  | mapPress c =>
      by_cases hv : s.addModalVisible || s.listModalVisible
      · simpa [step, hv] using h
      · simp [step, hv, handleMapPress]
  | recenter loc =>
      by_cases hv : s.addModalVisible || s.listModalVisible
      · simpa [step, hv] using h
      · cases loc <;> simpa [step, hv, recenterMap] using h
  | pressAdd =>
      by_cases hv : s.addModalVisible || s.listModalVisible
      · simpa [step, hv] using h
      · simp [step, hv, pressAddButton]
  | pressList =>
      by_cases hv : s.addModalVisible || s.listModalVisible
      · simpa [step, hv] using h
      · simpa [step, hv] using h
  | closeList =>
      by_cases hv : s.listModalVisible && !s.addModalVisible
      · simpa [step, hv] using h
      · simpa [step, hv] using h
  | typeName v =>
      by_cases hv : s.addModalVisible
      · simp [step, hv, setNewPlaceName]
      · simpa [step, hv] using h
  | typeDesc v =>
      by_cases hv : s.addModalVisible
      · simp [step, hv, setNewPlaceDesc]
      · simpa [step, hv] using h
  | save loc now =>
      by_cases hv : s.addModalVisible
      · simp only [step, hv, if_true]
        unfold saveCurrentPlace
        split
        · simp [hv]
        · split
          · simp [hv]
          · intro _
            simp [closeAddModal]
      · simpa [step, hv] using h
  | cancelAdd =>
      by_cases hv : s.addModalVisible
      · simp [step, hv, closeAddModal]
      · simpa [step, hv] using h
  | listGoTo p =>
      by_cases hv : s.listModalVisible && !s.addModalVisible
      · simpa [step, hv, goToPlace] using h
      · simpa [step, hv] using h
  | listEdit id =>
      by_cases hv : s.listModalVisible && !s.addModalVisible
      · simp only [step, hv, if_true]
        cases hf : s.savedPlaces.find? (fun p => p.id == id) with
        | none => simpa [editPlace, hf] using h
        | some place => simp [editPlace, hf]
      · simpa [step, hv] using h
  | listDelete id choice =>
      by_cases hv : s.listModalVisible && !s.addModalVisible
      · cases choice <;> simpa [step, hv, deletePlace] using h
      · simpa [step, hv] using h

lemma run_clean (events : List Event) :
    ∀ s : AppState,
      (s.addModalVisible = false →
        s.newPlaceName = "" ∧ s.newPlaceDesc = "") →
      ((run s events).addModalVisible = false →
        (run s events).newPlaceName = "" ∧
          (run s events).newPlaceDesc = "") := by
  induction events with
  | nil => intro s h; exact h
  | cons e es ih =>
    intro s h
    exact ih (step s e) (step_preserves_clean s e h)

/-- C5: in every reachable state in which the add button is pressable
(no modal open), pressing it clears the selected coordinate and opens
the add/edit modal with empty name and description fields — the fields
are empty because every way of closing the modal clears them, even
after an edit-open had pre-filled them. -/
theorem pressAdd_spec (s : AppState) (hr : Reachable s)
    (hadd : s.addModalVisible = false)
    (hlist : s.listModalVisible = false) :
    (step s .pressAdd).selectedLocation = none ∧
    (step s .pressAdd).addModalVisible = true ∧
    (step s .pressAdd).newPlaceName = "" ∧
    (step s .pressAdd).newPlaceDesc = "" := by
  obtain ⟨events, rfl⟩ := hr
  have hclean := run_clean events initialAppState
    (fun _ => ⟨rfl, rfl⟩) hadd
  refine ⟨?_, ?_, ?_, ?_⟩ <;>
    simp [step, hadd, hlist, pressAddButton, hclean.1, hclean.2]

/-- Witness for C5: the state reached by save, edit-open (pre-fill),
cancel, close-list; pressing add there opens a clean modal. -/
theorem pressAdd_witness :
    Reachable (run initialAppState editCancelTrace) ∧
    (run initialAppState editCancelTrace).addModalVisible = false ∧
    (run initialAppState editCancelTrace).listModalVisible = false ∧
    (step (run initialAppState editCancelTrace)
        .pressAdd).selectedLocation = none ∧
    (step (run initialAppState editCancelTrace)
        .pressAdd).addModalVisible = true ∧
    (step (run initialAppState editCancelTrace)
        .pressAdd).newPlaceName = "" ∧
    (step (run initialAppState editCancelTrace)
        .pressAdd).newPlaceDesc = "" := by
  have h := pressAdd_spec (run initialAppState editCancelTrace)
    ⟨editCancelTrace, rfl⟩ (by decide) (by decide)
  exact ⟨⟨editCancelTrace, rfl⟩, by decide, by decide,
    h.1, h.2.1, h.2.2.1, h.2.2.2⟩

/-! ### Machinery for C2: id distinctness under distinct save times. -/

lemma ids_eq_sublist {s t : AppState} (h : t.savedPlaces = s.savedPlaces) :
    (storeIds t).Sublist (storeIds s) := by
  rw [storeIds, storeIds, h]

/-- One step either keeps the id list a sublist of what it was, or is a
successful save appending exactly the id generated from its clock
value. -/
lemma step_ids (s : AppState) (e : Event) :
    (storeIds (step s e)).Sublist (storeIds s) ∨
    ∃ loc now, e = Event.save loc now ∧
      storeIds (step s e) = storeIds s ++ [Nat.repr now] := by
  cases e with
  | mapPress c =>
      exact Or.inl (ids_eq_sublist (by
        by_cases hv : s.addModalVisible || s.listModalVisible <;>
          simp [step, hv, handleMapPress]))
  | recenter loc =>
      refine Or.inl (ids_eq_sublist ?_)
      by_cases hv : s.addModalVisible || s.listModalVisible
      · simp [step, hv]
      · cases loc <;> simp [step, hv, recenterMap]
  | pressAdd =>
      exact Or.inl (ids_eq_sublist (by
        by_cases hv : s.addModalVisible || s.listModalVisible <;>
          simp [step, hv, pressAddButton]))
  | pressList =>
      exact Or.inl (ids_eq_sublist (by
        by_cases hv : s.addModalVisible || s.listModalVisible <;>
          simp [step, hv]))
  | closeList =>
      exact Or.inl (ids_eq_sublist (by
        by_cases hv : s.listModalVisible && !s.addModalVisible <;>
          simp [step, hv]))
  | typeName v =>
      exact Or.inl (ids_eq_sublist (by
        by_cases hv : s.addModalVisible <;>
          simp [step, hv, setNewPlaceName]))
  | typeDesc v =>
      exact Or.inl (ids_eq_sublist (by
        by_cases hv : s.addModalVisible <;>
          simp [step, hv, setNewPlaceDesc]))
  | save loc now =>
      by_cases hv : s.addModalVisible
      · by_cases h1 : (s.selectedLocation.isNone && loc.isNone) = true
        · exact Or.inl (ids_eq_sublist (by
            simp [step, hv, saveCurrentPlace, h1]))
        · by_cases h2 : jsTrim s.newPlaceName = ""
          · exact Or.inl (ids_eq_sublist (by
              simp [step, hv, saveCurrentPlace, h1, h2]))
          · refine Or.inr ⟨loc, now, rfl, ?_⟩
            simp [step, hv, saveCurrentPlace, h1, h2, closeAddModal,
              storeIds]
      · exact Or.inl (ids_eq_sublist (by simp [step, hv]))
  | cancelAdd =>
      exact Or.inl (ids_eq_sublist (by
        by_cases hv : s.addModalVisible <;> simp [step, hv, closeAddModal]))
  | listGoTo p =>
      exact Or.inl (ids_eq_sublist (by
        by_cases hv : s.listModalVisible && !s.addModalVisible <;>
          simp [step, hv, goToPlace]))
  | listEdit id =>
      refine Or.inl ?_
      by_cases hv : s.listModalVisible && !s.addModalVisible
      · simp only [step, hv, if_true]
        cases hf : s.savedPlaces.find? (fun p => p.id == id) with
        | none => exact ids_eq_sublist (by simp [editPlace, hf])
        | some place =>
            have hfil : (editPlace s id).savedPlaces =
                s.savedPlaces.filter (fun p => p.id != id) := by
              simp [editPlace, hf]
            rw [storeIds, storeIds, hfil]
            exact (List.filter_sublist _).map _
      · exact ids_eq_sublist (by simp [step, hv])
  | listDelete id choice =>
      refine Or.inl ?_
      by_cases hv : s.listModalVisible && !s.addModalVisible
      · cases choice with
        | cancel => exact ids_eq_sublist (by simp [step, hv, deletePlace])
        | confirm =>
            have hfil : (deletePlace s id .confirm).savedPlaces =
                s.savedPlaces.filter (fun p => p.id != id) := rfl
            simp only [step, hv, if_true]
            rw [storeIds, storeIds, hfil]
            exact (List.filter_sublist _).map _
      · exact ids_eq_sublist (by simp [step, hv])

lemma saveTimes_sublist (e : Event) (es : List Event) :
    (saveTimes es).Sublist (saveTimes (e :: es)) := by
  cases e <;> simp [saveTimes]

lemma run_ids_nodup (events : List Event) :
    ∀ s : AppState, (storeIds s).Nodup → (saveTimes events).Nodup →
      (∀ t ∈ saveTimes events, Nat.repr t ∉ storeIds s) →
      (storeIds (run s events)).Nodup := by
  induction events with
  | nil => intro s h1 _ _; exact h1
  | cons e es ih =>
    intro s h1 h2 h3
    have hsub2 : (saveTimes es).Sublist (saveTimes (e :: es)) :=
      saveTimes_sublist e es
    have h2' : (saveTimes es).Nodup := h2.sublist hsub2
    rcases step_ids s e with hsub | ⟨loc, now, he, heq⟩
    · refine ih (step s e) (h1.sublist hsub) h2' ?_
      intro t ht hmem
      exact h3 t (hsub2.subset ht) (hsub.subset hmem)
    · subst he
      have hnowmem : now ∈ saveTimes (Event.save loc now :: es) := by
        simp [saveTimes]
      have hnotin : Nat.repr now ∉ storeIds s := h3 now hnowmem
      have h1' : (storeIds (step s (Event.save loc now))).Nodup := by
        rw [heq]
        simp [List.nodup_append, h1, hnotin]
      refine ih _ h1' h2' ?_
      intro t ht
      rw [heq]
      intro hmem
      rcases List.mem_append.mp hmem with hm | hm
      · exact h3 t (hsub2.subset ht) hm
      · have hrepr : Nat.repr t = Nat.repr now := by simpa using hm
        have hteq : t = now := nat_repr_injective hrepr
        subst hteq
        have hst : saveTimes (Event.save loc t :: es) =
            t :: saveTimes es := rfl
        rw [hst] at h2
        exact (List.nodup_cons.mp h2).1 ht

/-- C2 counterexample: id uniqueness fails on a reachable state.  Two
saves whose clock reads 7 both times leave the store with ids
["7", "7"]; and saving after an edit-open with the clock unchanged
re-adds an entry carrying exactly the removed entry's id "5" — the
edited name is stored under the same id, not a new identity. -/
theorem duplicate_ids_cex :
    ¬ (storeIds (run initialAppState sameMillisTrace)).Nodup ∧
    (run initialAppState (editReuseTrace.take 4)).savedPlaces =
      [{ id := "5", latitude := 1, longitude := 2, name := "A",
         description := "" }] ∧
    (run initialAppState editReuseTrace).savedPlaces =
      [{ id := "5", latitude := 1, longitude := 2, name := "B",
         description := "" }] := by
  refine ⟨by decide, by decide, by decide⟩

/-- C2 (amended): for every user-event sequence whose save events carry
pairwise distinct clock values, the store ids in the reached state are
pairwise distinct; in particular a save after an edit-open gets an id
different from the removed entry's whenever its clock value differs
from the one that created the original. -/
theorem saved_ids_nodup (events : List Event)
    (h : (saveTimes events).Nodup) :
    (storeIds (run initialAppState events)).Nodup :=
  run_ids_nodup events initialAppState (by simp [storeIds, initialAppState])
    h (by intro t _ hmem; simp [storeIds, initialAppState] at hmem)

/-- Witness for C2: a trace with two saves at distinct clock values 5
and 6 yields distinct ids. -/
theorem saved_ids_nodup_witness :
    (saveTimes distinctTimesTrace).Nodup ∧
    (storeIds (run initialAppState distinctTimesTrace)).Nodup :=
  ⟨by decide, saved_ids_nodup distinctTimesTrace (by decide)⟩

end LocationApp
